import Mathlib

set_option maxHeartbeats 1000000

namespace PolarsParquet

/-- Errors of the polars io layer relevant to this module: the variant matched for
a missing column or statistic, and a catch-all for every other failure. -/
inductive PolarsError where
  | NotFound (msg : String)
  | ComputeError (msg : String)
deriving DecidableEq

abbrev PResult (α : Type) := Except PolarsError α

instance exceptDecEq {ε α : Type} [DecidableEq ε] [DecidableEq α] :
    DecidableEq (Except ε α)
  | .error e, .error e' =>
    if h : e = e' then .isTrue (by rw [h]) else .isFalse (by simp [h])
  | .error _, .ok _ => .isFalse (by simp)
  | .ok _, .error _ => .isFalse (by simp)
  | .ok a, .ok a' =>
    if h : a = a' then .isTrue (by rw [h]) else .isFalse (by simp [h])

/-- The logical type of an arrow field, kept abstract as a tag. -/
abbrev DataType := String

structure ArrowField where
  name : String
  data_type : DataType
deriving DecidableEq

structure ArrowSchema where
  fields : List ArrowField
deriving DecidableEq

/-- One decoded array chunk produced by the column deserializer: its logical type
and its cell values (cells kept abstract as naturals). -/
structure Arr where
  dtype : DataType
  values : List Nat
deriving DecidableEq

def Arr.len (a : Arr) : Nat := a.values.length

/-- The finite chunk sequence an ArrayIter yields, each pull fallible; consuming
only a prefix models pull-based early termination. -/
abbrev ArrayIter := List (PResult Arr)

/-- File-wide per-column statistics, kept abstract (column name, min, max). -/
abbrev BatchStats := List (String × Int × Int)

structure StatsEvaluator where
  should_read : BatchStats → PResult Bool

/-- A predicate object: a row-level filter plus the optional statistics-evaluation
capability returned by as_stats_evaluator. -/
structure PhysicalIoExpr where
  keep_row : List Nat → Bool
  as_stats_evaluator : Option StatsEvaluator

structure RowCount where
  name : String
  offset : Nat
deriving DecidableEq

structure Series where
  name : String
  dtype : DataType
  values : List Nat
deriving DecidableEq

structure DataFrame where
  columns : List Series
deriving DecidableEq

def DataFrame.new_no_checks (columns : List Series) : DataFrame := ⟨columns⟩

def DataFrame.height (df : DataFrame) : Nat :=
  match df.columns with
  | [] => 0
  | s :: _ => s.values.length

/-- Translation of the arrow function new_empty_array: a zero-length array of the given type. -/
def new_empty_array (dt : DataType) : Arr := ⟨dt, []⟩

/-- Modelled from the spec: Series conversion from a chunk list (the polars-core conversion
Series::try_from, not under src) — the concatenation of the chunks, named by the
field; fails on an empty chunk list. -/
def series_try_from (name : String) (chunks : List Arr) : PResult Series :=
  match chunks with
  | [] => .error (.ComputeError "no chunks")
  | c :: _ => .ok ⟨name, c.dtype, (chunks.map Arr.values).flatten⟩

/-- The capped accumulation loop of array_iter_to_series (source lines 29-43):
each chunk is appended first, and only then is the running total compared with
the cap. -/
def collect_capped (n : Nat) : ArrayIter → Nat → PResult (List Arr)
  | [], _ => .ok []
  | x :: xs, total =>
    match x with
    | .error e => .error e
    | .ok arr =>
      if n ≤ total + arr.len then .ok [arr]
      else
        match collect_capped n xs (total + arr.len) with
        | .error e => .error e
        | .ok rest => .ok (arr :: rest)

/-- The uncapped branch of array_iter_to_series (source line 28): drain the whole
iterator, failing on the first errored chunk. -/
def collect_all : ArrayIter → PResult (List Arr)
  | [] => .ok []
  | x :: xs =>
    match x with
    | .error e => .error e
    | .ok arr =>
      match collect_all xs with
      | .error e => .error e
      | .ok rest => .ok (arr :: rest)

/-- Translation of array_iter_to_series (source lines 21-51). -/
def array_iter_to_series (iter : ArrayIter) (field : ArrowField)
    (num_rows : Option Nat) : PResult Series :=
  let chunksR := match num_rows with
    | none => collect_all iter
    | some n => collect_capped n iter 0
  match chunksR with
  | .error e => .error e
  | .ok chunks =>
    if chunks.isEmpty then
      series_try_from field.name [new_empty_array field.data_type]
    else
      series_try_from field.name chunks

/-- Modelled from the spec: a typed empty table over a schema (the external
arrow_schema_to_empty_df) — one zero-row column per field, with the name and type of
the field. -/
def arrow_schema_to_empty_df (schema : ArrowSchema) : DataFrame :=
  ⟨schema.fields.map (fun f => ⟨f.name, f.data_type, []⟩)⟩

/-- Modelled from the spec: projection applied to a schema (the external
apply_projection) — the projected fields, in projection order. -/
def apply_projection (schema : ArrowSchema) (projection : List Nat) : ArrowSchema :=
  ⟨projection.map (fun i => schema.fields.getD i ⟨"", ""⟩)⟩

/-- Modelled from the spec: DataFrame::with_row_count_mut (polars-core) — prepends
a synthetic integer column whose value at existing row j is offset + j. -/
def DataFrame.with_row_count_mut (df : DataFrame) (name : String) (offset : Nat) :
    DataFrame :=
  ⟨⟨name, "idx", (List.range df.height).map (fun j => offset + j)⟩ :: df.columns⟩

def DataFrame.row (df : DataFrame) (i : Nat) : List Nat :=
  df.columns.map (fun s => s.values.getD i 0)

/-- Modelled from the spec: apply_predicate (the external predicate engine) —
keeps exactly the rows accepted by the row filter of the predicate; an absent
predicate leaves the table unchanged. -/
def apply_predicate (df : DataFrame) (predicate : Option PhysicalIoExpr) :
    PResult DataFrame :=
  match predicate with
  | none => .ok df
  | some p =>
    let kept := (List.range df.height).filter (fun i => p.keep_row (df.row i))
    .ok ⟨df.columns.map (fun s => ⟨s.name, s.dtype, kept.map (fun i => s.values.getD i 0)⟩)⟩

/-- An aggregation spec entry, modelled from the spec as an abstract fallible
table transformer (the reducer engine itself is out of scope). -/
abbrev ScanAggregation := DataFrame → PResult DataFrame

/-- Modelled from the spec: apply_aggregations (the external aggregation engine) —
applies the given reducers in order when a spec is present. -/
def apply_aggregations (df : DataFrame) (aggregate : Option (List ScanAggregation)) :
    PResult DataFrame :=
  match aggregate with
  | none => .ok df
  | some aggs => aggs.foldlM (fun d f => f d) df

/-- Modelled from the spec: vertical concatenation of the accumulated tables
(the polars-core accumulate_dataframes_vertical) — columns aligned positionally,
rows appended in accumulation order; fails on an empty collection. -/
def accumulate_dataframes_vertical (dfs : List DataFrame) : PResult DataFrame :=
  match dfs with
  | [] => .error (.ComputeError "expected at least one DataFrame")
  | d :: rest =>
    .ok (rest.foldl (fun acc b =>
      ⟨List.zipWith (fun sa sb => ⟨sa.name, sa.dtype, sa.values ++ sb.values⟩)
        acc.columns b.columns⟩) d)

/-- Modelled from the spec: DataFrame::slice (polars-core) at a non-negative
offset — length rows starting at that offset. -/
def DataFrame.slice (df : DataFrame) (offset : Nat) (length : Nat) : DataFrame :=
  ⟨df.columns.map (fun s => ⟨s.name, s.dtype, (s.values.drop offset).take length⟩)⟩

structure RowGroupMetaData where
  num_rows : Nat
deriving DecidableEq

structure FileMetaData where
  row_groups : List RowGroupMetaData
deriving DecidableEq

/-- The external collaborators of read_parquet, specified only at their interface:
footer parsing (read::read_metadata), file-wide statistics collection
(collect_statistics), and the per-column chunk deserializer (mmap_columns
composed with mmap::to_deserializer), keyed by row-group index and field and
given the remaining-row budget and the chunk size. -/
structure ScanEnv where
  read_metadata : PResult FileMetaData
  collect_statistics : List RowGroupMetaData → ArrowSchema → PResult (Option BatchStats)
  to_deserializer : Nat → ArrowField → Nat → Nat → PResult ArrayIter

/-- The mutable state of the row-group loop: the saturating row budget, the
running global row offset, the accumulated partial tables, and two
instrumentation counters — collect_statistics invocations made and row groups
whose column fan-out was dispatched to the worker pool. -/
structure ScanState where
  remaining_rows : Nat
  previous_row_count : Nat
  dfs : List DataFrame
  stats_calls : Nat
  pool_dispatches : Nat
deriving DecidableEq

/-- The statistics-based skip decision (source lines 89-102): Ok false skips, a
NotFound failure and Ok true both read, any other failure aborts; the second
component counts the collect_statistics invocations made (0 or 1). -/
def skip_decision (env : ScanEnv) (schema : ArrowSchema)
    (row_groups : List RowGroupMetaData) (predicate : Option PhysicalIoExpr) :
    PResult (Bool × Nat) :=
  match predicate with
  | none => .ok (false, 0)
  | some pred =>
    match pred.as_stats_evaluator with
    | none => .ok (false, 0)
    | some se =>
      match env.collect_statistics row_groups schema with
      | .error e => .error e
      | .ok none => .ok (false, 1)
      | .ok (some stats) =>
        match se.should_read stats with
        | .ok false => .ok (true, 1)
        | .ok true => .ok (false, 1)
        | .error (.NotFound _) => .ok (false, 1)
        | .error e => .error e

/-- The parallel column fan-out branch (source lines 111-132): every projected
column is dispatched across the worker pool and the results are collected in
projection order; the ordered collect of rayon is modelled as an order-preserving
traversal. -/
def materialize_columns_parallel (env : ScanEnv) (schema : ArrowSchema)
    (projection : List Nat) (rg : Nat) (md : RowGroupMetaData)
    (remaining_rows : Nat) (chunk_size : Nat) : PResult (List Series) :=
  projection.mapM (fun column_i =>
    let field := schema.fields.getD column_i ⟨"", ""⟩
    match env.to_deserializer rg field remaining_rows chunk_size with
    | .error e => .error e
    | .ok iter =>
      if remaining_rows < md.num_rows then
        array_iter_to_series iter field (some remaining_rows)
      else
        array_iter_to_series iter field none)

/-- The serial column fan-out branch (source lines 134-152): the projected columns
are materialized one after another in projection order. -/
def materialize_columns_serial (env : ScanEnv) (schema : ArrowSchema)
    (projection : List Nat) (rg : Nat) (md : RowGroupMetaData)
    (remaining_rows : Nat) (chunk_size : Nat) : PResult (List Series) :=
  projection.mapM (fun column_i =>
    let field := schema.fields.getD column_i ⟨"", ""⟩
    match env.to_deserializer rg field remaining_rows chunk_size with
    | .error e => .error e
    | .ok iter =>
      if remaining_rows < md.num_rows then
        array_iter_to_series iter field (some remaining_rows)
      else
        array_iter_to_series iter field none)

/-- Table assembly for one processed row group (source lines 158-161):
DataFrame::new_no_checks plus the optional RowCount column computed from
previous_row_count + offset. -/
def assemble_df (columns : List Series) (row_count : Option RowCount)
    (previous_row_count : Nat) : DataFrame :=
  let df := DataFrame.new_no_checks columns
  match row_count with
  | none => df
  | some rc => df.with_row_count_mut rc.name (previous_row_count + rc.offset)

/-- Processing of one kept row group (source lines 104-167): column fan-out, the
saturating budget decrement, table assembly, the row-level predicate, the
partial aggregation, and the counter and accumulator updates. -/
def materialize_row_group (env : ScanEnv) (schema : ArrowSchema) (fm : FileMetaData)
    (projection : List Nat) (predicate : Option PhysicalIoExpr)
    (aggregate : Option (List ScanAggregation)) (parallel : Bool)
    (row_count : Option RowCount) (st : ScanState) (rg : Nat) : PResult ScanState :=
  let md := fm.row_groups.getD rg ⟨0⟩
  let chunk_size := md.num_rows
  let columnsR :=
    if parallel then
      materialize_columns_parallel env schema projection rg md st.remaining_rows chunk_size
    else
      materialize_columns_serial env schema projection rg md st.remaining_rows chunk_size
  match columnsR with
  | .error e => .error e
  | .ok columns =>
    let remaining_rows := st.remaining_rows - md.num_rows
    let df := assemble_df columns row_count st.previous_row_count
    match apply_predicate df predicate with
    | .error e => .error e
    | .ok df =>
      match apply_aggregations df aggregate with
      | .error e => .error e
      | .ok df =>
        .ok { remaining_rows := remaining_rows,
              previous_row_count := st.previous_row_count + md.num_rows,
              dfs := st.dfs ++ [df],
              stats_calls := st.stats_calls,
              pool_dispatches := st.pool_dispatches + (if parallel then 1 else 0) }

/-- One iteration of the row-group loop of read_parquet (source lines 86-168): the skip
decision, then either the counter-only skip or full materialization. -/
def process_row_group (env : ScanEnv) (schema : ArrowSchema) (fm : FileMetaData)
    (projection : List Nat) (predicate : Option PhysicalIoExpr)
    (aggregate : Option (List ScanAggregation)) (parallel : Bool)
    (row_count : Option RowCount) (st : ScanState) (rg : Nat) : PResult ScanState :=
  let md := fm.row_groups.getD rg ⟨0⟩
  match skip_decision env schema fm.row_groups predicate with
  | .error e => .error e
  | .ok (skip, calls) =>
    let st' := { st with stats_calls := st.stats_calls + calls }
    if skip then
      .ok { st' with previous_row_count := st'.previous_row_count + md.num_rows }
    else
      materialize_row_group env schema fm projection predicate aggregate parallel
        row_count st' rg

/-- The effective projection (source lines 70-72): the projection given by the caller, or the
identity projection over the schema when none was given. -/
def effective_projection (projection : Option (List Nat)) (schema : ArrowSchema) :
    List Nat :=
  match projection with
  | some p => p
  | none => List.range schema.fields.length

/-- The effective parallel flag (source lines 74-76): a single-column projection
forces the serial path. -/
def effective_parallel (projection : Option (List Nat)) (schema : ArrowSchema)
    (parallel : Bool) : Bool :=
  if (effective_projection projection schema).length == 1 then false else parallel

structure ScanOutcome where
  df : DataFrame
  final : ScanState
deriving DecidableEq

/-- Translation of read_parquet (source lines 54-182), additionally returning the
final loop state so the running counters are observable. -/
def read_parquet_instr (env : ScanEnv) (limit : Nat) (projection : Option (List Nat))
    (schema : ArrowSchema) (metadata : Option FileMetaData)
    (predicate : Option PhysicalIoExpr) (aggregate : Option (List ScanAggregation))
    (parallel : Bool) (row_count : Option RowCount) : PResult ScanOutcome :=
  let fmR : PResult FileMetaData := match metadata with
    | some md => .ok md
    | none => env.read_metadata
  match fmR with
  | .error e => .error e
  | .ok file_metadata =>
    let row_group_len := file_metadata.row_groups.length
    let proj := effective_projection projection schema
    let par := effective_parallel projection schema parallel
    let init : ScanState := ⟨limit, 0, [], 0, 0⟩
    match (List.range row_group_len).foldlM
        (process_row_group env schema file_metadata proj predicate aggregate par
          row_count) init with
    | .error e => .error e
    | .ok st =>
      if st.dfs.isEmpty then
        let out_schema := match projection with
          | some _ => apply_projection schema proj
          | none => schema
        .ok ⟨arrow_schema_to_empty_df out_schema, st⟩
      else
        match accumulate_dataframes_vertical st.dfs with
        | .error e => .error e
        | .ok df =>
          match apply_aggregations df aggregate with
          | .error e => .error e
          | .ok df => .ok ⟨df.slice 0 limit, st⟩

/-- The caller-visible result of read_parquet: the table alone. -/
def read_parquet (env : ScanEnv) (limit : Nat) (projection : Option (List Nat))
    (schema : ArrowSchema) (metadata : Option FileMetaData)
    (predicate : Option PhysicalIoExpr) (aggregate : Option (List ScanAggregation))
    (parallel : Bool) (row_count : Option RowCount) : PResult DataFrame :=
  (read_parquet_instr env limit projection schema metadata predicate aggregate
    parallel row_count).map ScanOutcome.df

/-- Total number of rows held by the first k chunks of a chunk list. -/
def chunk_total (arrs : List Arr) (k : Nat) : Nat := ((arrs.take k).map Arr.len).sum

/-- A single-column schema used by the concrete scans below. -/
def schemaA : ArrowSchema := ⟨[⟨"a", "int"⟩]⟩

/-- A two-column schema used by the concrete scans below. -/
def schemaAB : ArrowSchema := ⟨[⟨"a", "int"⟩, ⟨"b", "string"⟩]⟩

/-- A predicate whose statistics evaluator always answers false: every row group
is skipped. -/
def predSkipAll : PhysicalIoExpr := ⟨fun _ => true, some ⟨fun _ => .ok false⟩⟩

/-- A predicate whose statistics evaluator always answers true: every row group
is read. -/
def predKeepAll : PhysicalIoExpr := ⟨fun _ => true, some ⟨fun _ => .ok true⟩⟩

/-- A predicate whose statistics evaluator always fails with NotFound. -/
def predNotFound : PhysicalIoExpr :=
  ⟨fun _ => true, some ⟨fun _ => .error (.NotFound "no stats for column")⟩⟩

/-- A predicate whose statistics evaluator always fails with a hard error. -/
def predHardErr : PhysicalIoExpr :=
  ⟨fun _ => true, some ⟨fun _ => .error (.ComputeError "stats evaluation failed")⟩⟩

/-- A predicate without the statistics-evaluation capability. -/
def predNoCap : PhysicalIoExpr := ⟨fun _ => true, none⟩

/-- Concrete scan environment: statistics are always collectible (an empty stats
batch), and every column of a row group deserializes to one chunk of exactly
chunk_size cells valued 0, 1, and so on. -/
def envStd : ScanEnv :=
  ⟨.error (.ComputeError "metadata parsing unused"),
   fun _ _ => .ok (some []),
   fun _ field _ chunk_size => .ok [.ok ⟨field.data_type, List.range chunk_size⟩]⟩

/-- Concrete scan environment whose statistics collection yields none. -/
def envNoStats : ScanEnv :=
  ⟨.error (.ComputeError "metadata parsing unused"),
   fun _ _ => .ok none,
   fun _ field _ chunk_size => .ok [.ok ⟨field.data_type, List.range chunk_size⟩]⟩

/-- File metadata with one 5-row row group. -/
def meta1g5 : FileMetaData := ⟨[⟨5⟩]⟩

/-- File metadata with one 10-row row group. -/
def meta1g10 : FileMetaData := ⟨[⟨10⟩]⟩

/-- File metadata with two 1-row row groups. -/
def meta2g : FileMetaData := ⟨[⟨1⟩, ⟨1⟩]⟩

/-- File metadata with three row groups of sizes 10, 20 and 30. -/
def meta3g : FileMetaData := ⟨[⟨10⟩, ⟨20⟩, ⟨30⟩]⟩

/-- File metadata with no row groups at all. -/
def metaEmpty : FileMetaData := ⟨[]⟩

/-- The final loop state of a concrete three-row-group scan (sizes 10, 20, 30,
row-count column at offset 7, nothing skipped), used as a concrete instance
below. -/
def c6_final : ScanState :=
  (List.foldlM (process_row_group envStd schemaA meta3g [0] none none false
    (some ⟨"rn", 7⟩)) ⟨1000, 0, [], 0, 0⟩ (List.range 3)).toOption.getD
    ⟨0, 0, [], 0, 0⟩

theorem chunk_total_zero (arrs : List Arr) : chunk_total arrs 0 = 0 := rfl

theorem chunk_total_cons (a : Arr) (as : List Arr) (j : Nat) :
    chunk_total (a :: as) (j + 1) = a.len + chunk_total as j := by
  simp [chunk_total, List.take_succ_cons]

theorem collect_all_map_ok (arrs : List Arr) :
    collect_all (arrs.map Except.ok) = .ok arrs := by
  induction arrs with
  | nil => rfl
  | cons a as ih => simp [collect_all, ih]

theorem collect_capped_char (n : Nat) (arrs : List Arr) (total : Nat) :
    ∃ k, collect_capped n (arrs.map Except.ok) total = .ok (arrs.take k)
      ∧ k ≤ arrs.length
      ∧ (arrs = [] → k = 0)
      ∧ (arrs ≠ [] → 1 ≤ k)
      ∧ (∀ j, 1 ≤ j → j < k → total + chunk_total arrs j < n)
      ∧ (k < arrs.length → n ≤ total + chunk_total arrs k) := by
  induction arrs generalizing total with
  | nil =>
    refine ⟨0, rfl, Nat.le_refl _, fun _ => rfl, fun h => absurd rfl h, ?_, ?_⟩
    · intro j hj hjk; omega
    · intro h; simp at h
  | cons a as ih =>
    by_cases hc : n ≤ total + a.len
    · refine ⟨1, ?_, ?_, ?_, ?_, ?_, ?_⟩
      · simp [collect_capped, hc]
      · simp
      · intro h; simp at h
      · intro _; exact Nat.le_refl 1
      · intro j hj hjk; omega
      · intro _
        have h1 : chunk_total (a :: as) 1 = a.len := by
          rw [show (1 : Nat) = 0 + 1 from rfl, chunk_total_cons, chunk_total_zero,
            Nat.add_zero]
        omega
    · obtain ⟨k', hrun, hle, _, _, hmin, hreach⟩ := ih (total + a.len)
      refine ⟨k' + 1, ?_, ?_, ?_, ?_, ?_, ?_⟩
      · simp only [List.map_cons, collect_capped]
        rw [if_neg hc, hrun]
        simp [List.take_succ_cons]
      · simpa using Nat.succ_le_succ hle
      · intro h; simp at h
      · intro _; exact Nat.le_add_left 1 k'
      · intro j hj hjk
        match j, hj with
        | 1, _ =>
          rw [show (1 : Nat) = 0 + 1 from rfl, chunk_total_cons, chunk_total_zero]
          omega
        | (j' + 2), _ =>
          rw [show j' + 2 = (j' + 1) + 1 from rfl, chunk_total_cons]
          have := hmin (j' + 1) (Nat.le_add_left 1 j') (by omega)
          omega
      · intro hk
        have hk' : k' < as.length := by simpa using Nat.lt_of_succ_lt_succ hk
        have := hreach hk'
        match k', this with
        | k'', h'' =>
          rw [chunk_total_cons]
          omega

theorem array_iter_to_series_name (iter : ArrayIter) (field : ArrowField)
    (num_rows : Option Nat) (s : Series) :
    array_iter_to_series iter field num_rows = .ok s → s.name = field.name := by
  intro h
  unfold array_iter_to_series at h
  rcases hr : (match num_rows with
    | none => collect_all iter
    | some n => collect_capped n iter 0) with e | chunks
  · rw [hr] at h; exact absurd h (by simp)
  · rw [hr] at h
    by_cases he : chunks.isEmpty
    · simp only [he, if_true] at h
      simp [series_try_from, new_empty_array] at h
      rw [← h]
    · simp only [he, if_false] at h
      cases chunks with
      | nil => simp at he
      | cons c cs =>
        simp [series_try_from] at h
        rw [← h]

theorem array_iter_to_series_nil (field : ArrowField) (num_rows : Option Nat) :
    array_iter_to_series [] field num_rows = .ok ⟨field.name, field.data_type, []⟩ := by
  cases num_rows <;> rfl

theorem array_iter_to_series_drain (field : ArrowField) (a : Arr) (arrs : List Arr) :
    array_iter_to_series ((a :: arrs).map Except.ok) field none
      = .ok ⟨field.name, a.dtype, ((a :: arrs).map Arr.values).flatten⟩ := by
  unfold array_iter_to_series
  rw [collect_all_map_ok]
  simp [series_try_from]

theorem array_iter_to_series_capped (field : ArrowField) (n : Nat) (a : Arr)
    (arrs : List Arr) :
    ∃ k, 1 ≤ k ∧ k ≤ (a :: arrs).length
      ∧ collect_capped n ((a :: arrs).map Except.ok) 0 = .ok ((a :: arrs).take k)
      ∧ (∀ j, 1 ≤ j → j < k → chunk_total (a :: arrs) j < n)
      ∧ (k < (a :: arrs).length → n ≤ chunk_total (a :: arrs) k)
      ∧ array_iter_to_series ((a :: arrs).map Except.ok) field (some n)
          = .ok ⟨field.name, a.dtype, (((a :: arrs).take k).map Arr.values).flatten⟩ := by
  obtain ⟨k, hrun, hle, _, hpos, hmin, hreach⟩ := collect_capped_char n (a :: arrs) 0
  have hk1 : 1 ≤ k := hpos (by simp)
  refine ⟨k, hk1, hle, hrun, ?_, ?_, ?_⟩
  · intro j hj hjk
    have := hmin j hj hjk
    omega
  · intro hk
    have := hreach hk
    omega
  · unfold array_iter_to_series
    dsimp only
    rw [hrun]
    have htk : (a :: arrs).take k = a :: arrs.take (k - 1) := by
      match k, hk1 with
      | (k' + 1), _ => simp [List.take_succ_cons]
    rw [htk]
    simp [series_try_from]

/-- C8: For every field and finite chunk sequence, the array materializer with no
row cap drains the sequence fully; with a row cap n it accumulates chunks until
the running total of consumed rows reaches or exceeds n and then stops pulling
further chunks (every proper nonempty prefix it passed had total below n, and
whenever it stopped before the end the consumed total reached n); and in all
cases it produces a column named after the field — an explicitly empty array of
the declared type of the field when no chunks were consumed, otherwise the
concatenation of the consumed chunks. -/
theorem c8_array_materializer (field : ArrowField) :
    (∀ num_rows, array_iter_to_series [] field num_rows
        = .ok ⟨field.name, field.data_type, []⟩)
    ∧ (∀ a arrs, array_iter_to_series ((a :: arrs).map Except.ok) field none
        = .ok ⟨field.name, a.dtype, ((a :: arrs).map Arr.values).flatten⟩)
    ∧ (∀ n a arrs, ∃ k, 1 ≤ k ∧ k ≤ (a :: arrs).length
        ∧ collect_capped n ((a :: arrs).map Except.ok) 0 = .ok ((a :: arrs).take k)
        ∧ (∀ j, 1 ≤ j → j < k → chunk_total (a :: arrs) j < n)
        ∧ (k < (a :: arrs).length → n ≤ chunk_total (a :: arrs) k)
        ∧ array_iter_to_series ((a :: arrs).map Except.ok) field (some n)
            = .ok ⟨field.name, a.dtype, (((a :: arrs).take k).map Arr.values).flatten⟩)
    ∧ (∀ iter num_rows s, array_iter_to_series iter field num_rows = .ok s →
        s.name = field.name) := by
  refine ⟨array_iter_to_series_nil field, array_iter_to_series_drain field,
    array_iter_to_series_capped field, ?_⟩
  intro iter num_rows s h
  exact array_iter_to_series_name iter field num_rows s h

/-- Witness for c8_array_materializer: the empty iterator gives the typed empty
column, and a concrete successful materialization carries the field name. -/
theorem c8_array_materializer_witness :
    array_iter_to_series [] ⟨"a", "int"⟩ (some 5) = .ok ⟨"a", "int", []⟩
    ∧ Series.name ⟨"a", "int", [7, 8]⟩ = ArrowField.name ⟨"a", "int"⟩ := by
  constructor
  · exact (c8_array_materializer ⟨"a", "int"⟩).1 (some 5)
  · exact (c8_array_materializer ⟨"a", "int"⟩).2.2.2 [Except.ok ⟨"int", [7, 8]⟩] none
      ⟨"a", "int", [7, 8]⟩ rfl

/-- C10: With a row cap n (n = 0 included) and a non-empty chunk sequence, the
capped branch consumes at least one chunk, because the stop condition is checked
only after a chunk has been appended; the returned column can therefore be
longer than n (a one-chunk overshoot is exhibited), and rows beyond the limit of
the caller are removed only by the final slice: in the concrete scan the
accumulated partial table keeps all 5 materialized rows while the returned table
is cut to the 3-row limit. -/
theorem c10_capped_at_least_one_chunk :
    (∀ n a arrs field, ∃ k, 1 ≤ k
      ∧ array_iter_to_series ((a :: arrs).map Except.ok) field (some n)
          = .ok ⟨field.name, a.dtype, (((a :: arrs).take k).map Arr.values).flatten⟩)
    ∧ (array_iter_to_series [Except.ok ⟨"int", [1, 2, 3, 4, 5]⟩] ⟨"a", "int"⟩ (some 3)
        = .ok ⟨"a", "int", [1, 2, 3, 4, 5]⟩ ∧ 3 < 5)
    ∧ ((read_parquet_instr envStd 3 none schemaA (some meta1g5) none none false
          none).toOption.map (fun oc => (oc.df.height, oc.final.dfs.map DataFrame.height))
        = some (3, [5])) := by
  refine ⟨?_, ⟨by decide, by decide⟩, by decide⟩
  intro n a arrs field
  obtain ⟨k, hk1, _, _, _, _, h6⟩ := array_iter_to_series_capped field n a arrs
  exact ⟨k, hk1, h6⟩

theorem materialize_columns_eq (env : ScanEnv) (schema : ArrowSchema)
    (projection : List Nat) (rg : Nat) (md : RowGroupMetaData)
    (remaining_rows : Nat) (chunk_size : Nat) :
    materialize_columns_parallel env schema projection rg md remaining_rows chunk_size
      = materialize_columns_serial env schema projection rg md remaining_rows chunk_size :=
  rfl

theorem materialize_row_group_ok (env : ScanEnv) (schema : ArrowSchema)
    (fm : FileMetaData) (proj : List Nat) (pred : Option PhysicalIoExpr)
    (agg : Option (List ScanAggregation)) (par : Bool) (rc : Option RowCount)
    (st : ScanState) (rg : Nat) (r : ScanState)
    (h : materialize_row_group env schema fm proj pred agg par rc st rg = .ok r) :
    ∃ columns df1 df2,
      materialize_columns_serial env schema proj rg (fm.row_groups.getD rg ⟨0⟩)
          st.remaining_rows (fm.row_groups.getD rg ⟨0⟩).num_rows = .ok columns
      ∧ apply_predicate (assemble_df columns rc st.previous_row_count) pred = .ok df1
      ∧ apply_aggregations df1 agg = .ok df2
      ∧ r = { remaining_rows := st.remaining_rows - (fm.row_groups.getD rg ⟨0⟩).num_rows,
              previous_row_count :=
                st.previous_row_count + (fm.row_groups.getD rg ⟨0⟩).num_rows,
              dfs := st.dfs ++ [df2],
              stats_calls := st.stats_calls,
              pool_dispatches := st.pool_dispatches + if par then 1 else 0 } := by
  unfold materialize_row_group at h
  dsimp only at h
  rw [materialize_columns_eq, ite_self] at h
  cases h1 : materialize_columns_serial env schema proj rg (fm.row_groups.getD rg ⟨0⟩)
      st.remaining_rows (fm.row_groups.getD rg ⟨0⟩).num_rows with
  | error e => rw [h1] at h; exact absurd h (by simp)
  | ok columns =>
    rw [h1] at h
    dsimp only at h
    cases h2 : apply_predicate (assemble_df columns rc st.previous_row_count) pred with
    | error e => rw [h2] at h; exact absurd h (by simp)
    | ok df1 =>
      rw [h2] at h
      dsimp only at h
      cases h3 : apply_aggregations df1 agg with
      | error e => rw [h3] at h; exact absurd h (by simp)
      | ok df2 =>
        rw [h3] at h
        dsimp only at h
        refine ⟨columns, df1, df2, rfl, h2, h3, ?_⟩
        cases h
        rfl

theorem process_row_group_ok (env : ScanEnv) (schema : ArrowSchema)
    (fm : FileMetaData) (proj : List Nat) (pred : Option PhysicalIoExpr)
    (agg : Option (List ScanAggregation)) (par : Bool) (rc : Option RowCount)
    (st : ScanState) (rg : Nat) (r : ScanState)
    (h : process_row_group env schema fm proj pred agg par rc st rg = .ok r) :
    ∃ skip calls, skip_decision env schema fm.row_groups pred = .ok (skip, calls)
      ∧ ((skip = true
          ∧ r = { st with
              stats_calls := st.stats_calls + calls,
              previous_row_count :=
                st.previous_row_count + (fm.row_groups.getD rg ⟨0⟩).num_rows })
        ∨ (skip = false
          ∧ materialize_row_group env schema fm proj pred agg par rc
              { st with stats_calls := st.stats_calls + calls } rg = .ok r)) := by
  unfold process_row_group at h
  cases hd : skip_decision env schema fm.row_groups pred with
  | error e => rw [hd] at h; exact absurd h (by simp)
  | ok sc =>
    obtain ⟨skip, calls⟩ := sc
    rw [hd] at h
    refine ⟨skip, calls, rfl, ?_⟩
    cases skip with
    | true =>
      left
      refine ⟨rfl, ?_⟩
      simp only [if_true] at h
      cases h
      rfl
    | false =>
      right
      exact ⟨rfl, by simpa using h⟩

theorem pr_bind_ok {α β : Type} (a : α) (f : α → PResult β) :
    (Except.ok a : PResult α) >>= f = f a := rfl

theorem pr_bind_error {α β : Type} (e : PolarsError) (f : α → PResult β) :
    (Except.error e : PResult α) >>= f = .error e := rfl

theorem pr_map_ok {α β : Type} (g : α → β) (a : α) :
    (Except.ok a : PResult α).map g = .ok (g a) := rfl

theorem pr_map_error {α β : Type} (g : α → β) (e : PolarsError) :
    (Except.error e : PResult α).map g = .error e := rfl

theorem skip_decision_none_pred (env : ScanEnv) (schema : ArrowSchema)
    (rgs : List RowGroupMetaData) :
    skip_decision env schema rgs none = .ok (false, 0) := rfl

theorem skip_decision_no_evaluator (env : ScanEnv) (schema : ArrowSchema)
    (rgs : List RowGroupMetaData) (p : PhysicalIoExpr)
    (h : p.as_stats_evaluator = none) :
    skip_decision env schema rgs (some p) = .ok (false, 0) := by
  simp [skip_decision, h]

theorem skip_decision_no_stats (env : ScanEnv) (schema : ArrowSchema)
    (rgs : List RowGroupMetaData) (p : PhysicalIoExpr) (se : StatsEvaluator)
    (h1 : p.as_stats_evaluator = some se)
    (h2 : env.collect_statistics rgs schema = .ok none) :
    skip_decision env schema rgs (some p) = .ok (false, 1) := by
  simp [skip_decision, h1, h2]

theorem skip_decision_skip (env : ScanEnv) (schema : ArrowSchema)
    (rgs : List RowGroupMetaData) (p : PhysicalIoExpr) (se : StatsEvaluator)
    (stats : BatchStats) (h1 : p.as_stats_evaluator = some se)
    (h2 : env.collect_statistics rgs schema = .ok (some stats))
    (h3 : se.should_read stats = .ok false) :
    skip_decision env schema rgs (some p) = .ok (true, 1) := by
  simp [skip_decision, h1, h2, h3]

theorem skip_decision_keep (env : ScanEnv) (schema : ArrowSchema)
    (rgs : List RowGroupMetaData) (p : PhysicalIoExpr) (se : StatsEvaluator)
    (stats : BatchStats) (h1 : p.as_stats_evaluator = some se)
    (h2 : env.collect_statistics rgs schema = .ok (some stats))
    (h3 : se.should_read stats = .ok true) :
    skip_decision env schema rgs (some p) = .ok (false, 1) := by
  simp [skip_decision, h1, h2, h3]

theorem skip_decision_notfound (env : ScanEnv) (schema : ArrowSchema)
    (rgs : List RowGroupMetaData) (p : PhysicalIoExpr) (se : StatsEvaluator)
    (stats : BatchStats) (m : String) (h1 : p.as_stats_evaluator = some se)
    (h2 : env.collect_statistics rgs schema = .ok (some stats))
    (h3 : se.should_read stats = .error (.NotFound m)) :
    skip_decision env schema rgs (some p) = .ok (false, 1) := by
  simp [skip_decision, h1, h2, h3]

theorem skip_decision_hard_error (env : ScanEnv) (schema : ArrowSchema)
    (rgs : List RowGroupMetaData) (p : PhysicalIoExpr) (se : StatsEvaluator)
    (stats : BatchStats) (e : PolarsError) (h1 : p.as_stats_evaluator = some se)
    (h2 : env.collect_statistics rgs schema = .ok (some stats))
    (h3 : se.should_read stats = .error e) (hne : ∀ m, e ≠ .NotFound m) :
    skip_decision env schema rgs (some p) = .error e := by
  cases e with
  | NotFound m => exact absurd rfl (hne m)
  | ComputeError m => simp [skip_decision, h1, h2, h3]

theorem skip_decision_calls_one (env : ScanEnv) (schema : ArrowSchema)
    (rgs : List RowGroupMetaData) (p : PhysicalIoExpr) (se : StatsEvaluator)
    (s : Bool) (c : Nat) (h1 : p.as_stats_evaluator = some se)
    (h : skip_decision env schema rgs (some p) = .ok (s, c)) : c = 1 := by
  unfold skip_decision at h
  dsimp only at h
  rw [h1] at h
  cases h2 : env.collect_statistics rgs schema with
  | error e => rw [h2] at h; exact absurd h (by simp)
  | ok os =>
    rw [h2] at h
    cases os with
    | none => cases h; rfl
    | some stats =>
      dsimp only at h
      cases h3 : se.should_read stats with
      | ok b => rw [h3] at h; cases b <;> (cases h; rfl)
      | error e =>
        rw [h3] at h
        cases e with
        | NotFound m => cases h; rfl
        | ComputeError m => exact absurd h (by simp)

theorem process_row_group_of_decision (env : ScanEnv) (schema : ArrowSchema)
    (fm : FileMetaData) (proj : List Nat) (pred : Option PhysicalIoExpr)
    (agg : Option (List ScanAggregation)) (par : Bool) (rc : Option RowCount)
    (st : ScanState) (rg : Nat) (skip : Bool) (calls : Nat)
    (hd : skip_decision env schema fm.row_groups pred = .ok (skip, calls)) :
    process_row_group env schema fm proj pred agg par rc st rg
      = if skip then
          .ok { st with
            stats_calls := st.stats_calls + calls,
            previous_row_count :=
              st.previous_row_count + (fm.row_groups.getD rg ⟨0⟩).num_rows }
        else
          materialize_row_group env schema fm proj pred agg par rc
            { st with stats_calls := st.stats_calls + calls } rg := by
  unfold process_row_group
  dsimp only
  rw [hd]

theorem process_row_group_of_decision_error (env : ScanEnv) (schema : ArrowSchema)
    (fm : FileMetaData) (proj : List Nat) (pred : Option PhysicalIoExpr)
    (agg : Option (List ScanAggregation)) (par : Bool) (rc : Option RowCount)
    (st : ScanState) (rg : Nat) (e : PolarsError)
    (hd : skip_decision env schema fm.row_groups pred = .error e) :
    process_row_group env schema fm proj pred agg par rc st rg = .error e := by
  unfold process_row_group
  dsimp only
  rw [hd]

theorem process_row_group_prc (env : ScanEnv) (schema : ArrowSchema)
    (fm : FileMetaData) (proj : List Nat) (pred : Option PhysicalIoExpr)
    (agg : Option (List ScanAggregation)) (par : Bool) (rc : Option RowCount)
    (st : ScanState) (rg : Nat) (r : ScanState)
    (h : process_row_group env schema fm proj pred agg par rc st rg = .ok r) :
    r.previous_row_count
      = st.previous_row_count + (fm.row_groups.getD rg ⟨0⟩).num_rows := by
  obtain ⟨skip, calls, _, hcase⟩ :=
    process_row_group_ok env schema fm proj pred agg par rc st rg r h
  rcases hcase with ⟨_, hr⟩ | ⟨_, hm⟩
  · rw [hr]
  · obtain ⟨_, _, _, _, _, _, hr⟩ :=
      materialize_row_group_ok env schema fm proj pred agg par rc _ rg r hm
    rw [hr]

theorem process_row_group_remaining_le (env : ScanEnv) (schema : ArrowSchema)
    (fm : FileMetaData) (proj : List Nat) (pred : Option PhysicalIoExpr)
    (agg : Option (List ScanAggregation)) (par : Bool) (rc : Option RowCount)
    (st : ScanState) (rg : Nat) (r : ScanState)
    (h : process_row_group env schema fm proj pred agg par rc st rg = .ok r) :
    r.remaining_rows ≤ st.remaining_rows := by
  obtain ⟨skip, calls, _, hcase⟩ :=
    process_row_group_ok env schema fm proj pred agg par rc st rg r h
  rcases hcase with ⟨_, hr⟩ | ⟨_, hm⟩
  · rw [hr]
  · obtain ⟨_, _, _, _, _, _, hr⟩ :=
      materialize_row_group_ok env schema fm proj pred agg par rc _ rg r hm
    rw [hr]
    exact Nat.sub_le _ _

theorem process_row_group_dfs (env : ScanEnv) (schema : ArrowSchema)
    (fm : FileMetaData) (proj : List Nat) (pred : Option PhysicalIoExpr)
    (agg : Option (List ScanAggregation)) (par : Bool) (rc : Option RowCount)
    (st : ScanState) (rg : Nat) (r : ScanState)
    (h : process_row_group env schema fm proj pred agg par rc st rg = .ok r) :
    r.dfs = st.dfs ∨ ∃ df, r.dfs = st.dfs ++ [df] := by
  obtain ⟨skip, calls, _, hcase⟩ :=
    process_row_group_ok env schema fm proj pred agg par rc st rg r h
  rcases hcase with ⟨_, hr⟩ | ⟨_, hm⟩
  · left; rw [hr]
  · obtain ⟨_, _, df2, _, _, _, hr⟩ :=
      materialize_row_group_ok env schema fm proj pred agg par rc _ rg r hm
    right; exact ⟨df2, by rw [hr]⟩

theorem process_row_group_dfs_len (env : ScanEnv) (schema : ArrowSchema)
    (fm : FileMetaData) (proj : List Nat) (pred : Option PhysicalIoExpr)
    (agg : Option (List ScanAggregation)) (par : Bool) (rc : Option RowCount)
    (st : ScanState) (rg : Nat) (r : ScanState)
    (h : process_row_group env schema fm proj pred agg par rc st rg = .ok r) :
    st.dfs.length ≤ r.dfs.length := by
  rcases process_row_group_dfs env schema fm proj pred agg par rc st rg r h with
    hr | ⟨df, hr⟩ <;> simp [hr]

theorem process_row_group_pool_false (env : ScanEnv) (schema : ArrowSchema)
    (fm : FileMetaData) (proj : List Nat) (pred : Option PhysicalIoExpr)
    (agg : Option (List ScanAggregation)) (rc : Option RowCount)
    (st : ScanState) (rg : Nat) (r : ScanState)
    (h : process_row_group env schema fm proj pred agg false rc st rg = .ok r) :
    r.pool_dispatches = st.pool_dispatches := by
  obtain ⟨skip, calls, _, hcase⟩ :=
    process_row_group_ok env schema fm proj pred agg false rc st rg r h
  rcases hcase with ⟨_, hr⟩ | ⟨_, hm⟩
  · rw [hr]
  · obtain ⟨_, _, _, _, _, _, hr⟩ :=
      materialize_row_group_ok env schema fm proj pred agg false rc _ rg r hm
    rw [hr]
    simp

theorem process_row_group_stats_eval (env : ScanEnv) (schema : ArrowSchema)
    (fm : FileMetaData) (proj : List Nat) (p : PhysicalIoExpr)
    (se : StatsEvaluator) (agg : Option (List ScanAggregation)) (par : Bool)
    (rc : Option RowCount) (st : ScanState) (rg : Nat) (r : ScanState)
    (hse : p.as_stats_evaluator = some se)
    (h : process_row_group env schema fm proj (some p) agg par rc st rg = .ok r) :
    r.stats_calls = st.stats_calls + 1 := by
  obtain ⟨skip, calls, hd, hcase⟩ :=
    process_row_group_ok env schema fm proj (some p) agg par rc st rg r h
  have hc1 : calls = 1 :=
    skip_decision_calls_one env schema fm.row_groups p se skip calls hse hd
  subst hc1
  rcases hcase with ⟨_, hr⟩ | ⟨_, hm⟩
  · rw [hr]
  · obtain ⟨_, _, _, _, _, _, hr⟩ :=
      materialize_row_group_ok env schema fm proj (some p) agg par rc _ rg r hm
    rw [hr]

theorem foldlM_process_prc (env : ScanEnv) (schema : ArrowSchema) (fm : FileMetaData)
    (proj : List Nat) (pred : Option PhysicalIoExpr)
    (agg : Option (List ScanAggregation)) (par : Bool) (rc : Option RowCount)
    (l : List Nat) :
    ∀ (st r : ScanState),
      List.foldlM (process_row_group env schema fm proj pred agg par rc) st l = .ok r →
      r.previous_row_count = st.previous_row_count
        + (l.map (fun i => (fm.row_groups.getD i ⟨0⟩).num_rows)).sum := by
  induction l with
  | nil =>
    intro st r h
    rw [List.foldlM_nil] at h
    have hst : st = r := Except.ok.inj h
    subst hst
    simp
  | cons a as ih =>
    intro st r h
    rw [List.foldlM_cons] at h
    cases ha : process_row_group env schema fm proj pred agg par rc st a with
    | error e => rw [ha, pr_bind_error] at h; exact absurd h (by simp)
    | ok r0 =>
      rw [ha, pr_bind_ok] at h
      have h0 := process_row_group_prc env schema fm proj pred agg par rc st a r0 ha
      have h1 := ih r0 r h
      simp only [List.map_cons, List.sum_cons]
      omega

theorem foldlM_process_remaining_le (env : ScanEnv) (schema : ArrowSchema)
    (fm : FileMetaData) (proj : List Nat) (pred : Option PhysicalIoExpr)
    (agg : Option (List ScanAggregation)) (par : Bool) (rc : Option RowCount)
    (l : List Nat) :
    ∀ (st r : ScanState),
      List.foldlM (process_row_group env schema fm proj pred agg par rc) st l = .ok r →
      r.remaining_rows ≤ st.remaining_rows := by
  induction l with
  | nil =>
    intro st r h
    have hst : st = r := Except.ok.inj h
    subst hst
    exact Nat.le_refl _
  | cons a as ih =>
    intro st r h
    rw [List.foldlM_cons] at h
    cases ha : process_row_group env schema fm proj pred agg par rc st a with
    | error e => rw [ha, pr_bind_error] at h; exact absurd h (by simp)
    | ok r0 =>
      rw [ha, pr_bind_ok] at h
      exact Nat.le_trans (ih r0 r h)
        (process_row_group_remaining_le env schema fm proj pred agg par rc st a r0 ha)

theorem foldlM_process_dfs_len (env : ScanEnv) (schema : ArrowSchema)
    (fm : FileMetaData) (proj : List Nat) (pred : Option PhysicalIoExpr)
    (agg : Option (List ScanAggregation)) (par : Bool) (rc : Option RowCount)
    (l : List Nat) :
    ∀ (st r : ScanState),
      List.foldlM (process_row_group env schema fm proj pred agg par rc) st l = .ok r →
      st.dfs.length ≤ r.dfs.length := by
  induction l with
  | nil =>
    intro st r h
    have hst : st = r := Except.ok.inj h
    subst hst
    exact Nat.le_refl _
  | cons a as ih =>
    intro st r h
    rw [List.foldlM_cons] at h
    cases ha : process_row_group env schema fm proj pred agg par rc st a with
    | error e => rw [ha, pr_bind_error] at h; exact absurd h (by simp)
    | ok r0 =>
      rw [ha, pr_bind_ok] at h
      exact Nat.le_trans
        (process_row_group_dfs_len env schema fm proj pred agg par rc st a r0 ha)
        (ih r0 r h)

theorem foldlM_process_pool_false (env : ScanEnv) (schema : ArrowSchema)
    (fm : FileMetaData) (proj : List Nat) (pred : Option PhysicalIoExpr)
    (agg : Option (List ScanAggregation)) (rc : Option RowCount)
    (l : List Nat) :
    ∀ (st r : ScanState),
      List.foldlM (process_row_group env schema fm proj pred agg false rc) st l = .ok r →
      r.pool_dispatches = st.pool_dispatches := by
  induction l with
  | nil =>
    intro st r h
    have hst : st = r := Except.ok.inj h
    subst hst
    rfl
  | cons a as ih =>
    intro st r h
    rw [List.foldlM_cons] at h
    cases ha : process_row_group env schema fm proj pred agg false rc st a with
    | error e => rw [ha, pr_bind_error] at h; exact absurd h (by simp)
    | ok r0 =>
      rw [ha, pr_bind_ok] at h
      rw [ih r0 r h]
      exact process_row_group_pool_false env schema fm proj pred agg rc st a r0 ha

theorem foldlM_process_stats_eval (env : ScanEnv) (schema : ArrowSchema)
    (fm : FileMetaData) (proj : List Nat) (p : PhysicalIoExpr) (se : StatsEvaluator)
    (agg : Option (List ScanAggregation)) (par : Bool) (rc : Option RowCount)
    (hse : p.as_stats_evaluator = some se) (l : List Nat) :
    ∀ (st r : ScanState),
      List.foldlM (process_row_group env schema fm proj (some p) agg par rc) st l
        = .ok r →
      r.stats_calls = st.stats_calls + l.length := by
  induction l with
  | nil =>
    intro st r h
    have hst : st = r := Except.ok.inj h
    subst hst
    simp
  | cons a as ih =>
    intro st r h
    rw [List.foldlM_cons] at h
    cases ha : process_row_group env schema fm proj (some p) agg par rc st a with
    | error e => rw [ha, pr_bind_error] at h; exact absurd h (by simp)
    | ok r0 =>
      rw [ha, pr_bind_ok] at h
      have h0 := process_row_group_stats_eval env schema fm proj p se agg par rc st a
        r0 hse ha
      have h1 := ih r0 r h
      simp only [List.length_cons]
      omega

theorem foldlM_process_all_skip (env : ScanEnv) (schema : ArrowSchema)
    (fm : FileMetaData) (proj : List Nat) (p : PhysicalIoExpr) (se : StatsEvaluator)
    (stats : BatchStats) (agg : Option (List ScanAggregation)) (par : Bool)
    (rc : Option RowCount) (hse : p.as_stats_evaluator = some se)
    (hcs : env.collect_statistics fm.row_groups schema = .ok (some stats))
    (hsr : se.should_read stats = .ok false) (l : List Nat) :
    ∀ (st : ScanState), ∃ r,
      List.foldlM (process_row_group env schema fm proj (some p) agg par rc) st l
        = .ok r ∧ r.dfs = st.dfs := by
  induction l with
  | nil => intro st; exact ⟨st, rfl, rfl⟩
  | cons a as ih =>
    intro st
    have hd := skip_decision_skip env schema fm.row_groups p se stats hse hcs hsr
    have hstep := process_row_group_of_decision env schema fm proj (some p) agg par rc
      st a true 1 hd
    rw [if_pos rfl] at hstep
    obtain ⟨r, hrun, hdfs⟩ := ih { st with
      stats_calls := st.stats_calls + 1,
      previous_row_count :=
        st.previous_row_count + (fm.row_groups.getD a ⟨0⟩).num_rows }
    refine ⟨r, ?_, hdfs⟩
    rw [List.foldlM_cons, hstep, pr_bind_ok]
    exact hrun

theorem materialize_row_group_par (env : ScanEnv) (schema : ArrowSchema)
    (fm : FileMetaData) (proj : List Nat) (pred : Option PhysicalIoExpr)
    (agg : Option (List ScanAggregation)) (par : Bool) (rc : Option RowCount)
    (st : ScanState) (rg : Nat) :
    materialize_row_group env schema fm proj pred agg par rc st rg
      = (materialize_row_group env schema fm proj pred agg false rc
          { st with pool_dispatches := 0 } rg).map
          (fun r => { r with pool_dispatches :=
            st.pool_dispatches + if par then r.dfs.length - st.dfs.length else 0 }) := by
  unfold materialize_row_group
  dsimp only
  rw [materialize_columns_eq, ite_self, ite_self]
  cases h1 : materialize_columns_serial env schema proj rg (fm.row_groups.getD rg ⟨0⟩)
      st.remaining_rows (fm.row_groups.getD rg ⟨0⟩).num_rows with
  | error e => rfl
  | ok columns =>
    dsimp only
    cases h2 : apply_predicate (assemble_df columns rc st.previous_row_count) pred with
    | error e => rfl
    | ok df1 =>
      dsimp only
      cases h3 : apply_aggregations df1 agg with
      | error e => rfl
      | ok df2 =>
        cases par <;> simp [pr_map_ok]

theorem process_row_group_par (env : ScanEnv) (schema : ArrowSchema)
    (fm : FileMetaData) (proj : List Nat) (pred : Option PhysicalIoExpr)
    (agg : Option (List ScanAggregation)) (par : Bool) (rc : Option RowCount)
    (st : ScanState) (rg : Nat) :
    process_row_group env schema fm proj pred agg par rc st rg
      = (process_row_group env schema fm proj pred agg false rc
          { st with pool_dispatches := 0 } rg).map
          (fun r => { r with pool_dispatches :=
            st.pool_dispatches + if par then r.dfs.length - st.dfs.length else 0 }) := by
  cases hd : skip_decision env schema fm.row_groups pred with
  | error e =>
    rw [process_row_group_of_decision_error env schema fm proj pred agg par rc st rg
      e hd]
    rw [process_row_group_of_decision_error env schema fm proj pred agg false rc
      { st with pool_dispatches := 0 } rg e hd]
    rfl
  | ok sc =>
    obtain ⟨skip, calls⟩ := sc
    rw [process_row_group_of_decision env schema fm proj pred agg par rc st rg skip
      calls hd]
    rw [process_row_group_of_decision env schema fm proj pred agg false rc
      { st with pool_dispatches := 0 } rg skip calls hd]
    cases skip with
    | true => cases par <;> simp [pr_map_ok]
    | false =>
      simp only [Bool.false_eq_true, if_false]
      rw [materialize_row_group_par env schema fm proj pred agg par rc
        { st with stats_calls := st.stats_calls + calls } rg]

theorem foldlM_process_par (env : ScanEnv) (schema : ArrowSchema) (fm : FileMetaData)
    (proj : List Nat) (pred : Option PhysicalIoExpr)
    (agg : Option (List ScanAggregation)) (par : Bool) (rc : Option RowCount)
    (l : List Nat) :
    ∀ (st : ScanState),
      List.foldlM (process_row_group env schema fm proj pred agg par rc) st l
        = (List.foldlM (process_row_group env schema fm proj pred agg false rc)
            { st with pool_dispatches := 0 } l).map
            (fun r => { r with pool_dispatches :=
              st.pool_dispatches + if par then r.dfs.length - st.dfs.length else 0 }) := by
  induction l with
  | nil =>
    intro st
    rw [List.foldlM_nil, List.foldlM_nil]
    show _ = (Except.ok ({ st with pool_dispatches := 0 } : ScanState)).map _
    rw [pr_map_ok]
    cases par <;> (simp; rfl)
  | cons a as ih =>
    intro st
    rw [List.foldlM_cons, List.foldlM_cons]
    rw [process_row_group_par env schema fm proj pred agg par rc st a]
    cases hf : process_row_group env schema fm proj pred agg false rc
        { st with pool_dispatches := 0 } a with
    | error e => rfl
    | ok r0 =>
      rw [pr_map_ok, pr_bind_ok, pr_bind_ok]
      have hr0pool : r0.pool_dispatches = 0 :=
        process_row_group_pool_false env schema fm proj pred agg rc
          { st with pool_dispatches := 0 } a r0 hf
      have hm1 : st.dfs.length ≤ r0.dfs.length :=
        process_row_group_dfs_len env schema fm proj pred agg false rc
          { st with pool_dispatches := 0 } a r0 hf
      have heta : ({ r0 with pool_dispatches :=
          (0 : Nat) } : ScanState) = r0 := by
        rw [← hr0pool]
      have hihr := ih { r0 with pool_dispatches :=
        st.pool_dispatches + if par then r0.dfs.length - st.dfs.length else 0 }
      dsimp only at hihr
      rw [heta] at hihr
      rw [hihr]
      cases hrest : List.foldlM
          (process_row_group env schema fm proj pred agg false rc) r0 as with
      | error e => rfl
      | ok r =>
        rw [pr_map_ok, pr_map_ok]
        have hm2 : r0.dfs.length ≤ r.dfs.length :=
          foldlM_process_dfs_len env schema fm proj pred agg false rc as r0 r hrest
        have hpool : (st.pool_dispatches
              + if par then r0.dfs.length - st.dfs.length else 0)
              + (if par then r.dfs.length - r0.dfs.length else 0)
            = st.pool_dispatches + if par then r.dfs.length - st.dfs.length else 0 := by
          cases par <;> simp <;> omega
        simp only [hpool]

theorem read_parquet_instr_none_md (env : ScanEnv) (limit : Nat)
    (projection : Option (List Nat)) (schema : ArrowSchema)
    (predicate : Option PhysicalIoExpr) (aggregate : Option (List ScanAggregation))
    (par : Bool) (rc : Option RowCount) :
    read_parquet_instr env limit projection schema none predicate aggregate par rc
      = match env.read_metadata with
        | .error e => .error e
        | .ok fm =>
          read_parquet_instr env limit projection schema (some fm) predicate
            aggregate par rc := by
  unfold read_parquet_instr
  cases env.read_metadata <;> rfl

theorem read_parquet_instr_cases (env : ScanEnv) (limit : Nat)
    (projection : Option (List Nat)) (schema : ArrowSchema) (fm : FileMetaData)
    (predicate : Option PhysicalIoExpr) (aggregate : Option (List ScanAggregation))
    (par : Bool) (rc : Option RowCount) (oc : ScanOutcome)
    (h : read_parquet_instr env limit projection schema (some fm) predicate aggregate
      par rc = .ok oc) :
    List.foldlM (process_row_group env schema fm
        (effective_projection projection schema) predicate aggregate
        (effective_parallel projection schema par) rc)
        ⟨limit, 0, [], 0, 0⟩ (List.range fm.row_groups.length) = .ok oc.final
    ∧ ((oc.final.dfs = []
        ∧ oc.df = arrow_schema_to_empty_df (match projection with
            | some pl => apply_projection schema pl
            | none => schema))
      ∨ (∃ d d2, accumulate_dataframes_vertical oc.final.dfs = .ok d
          ∧ apply_aggregations d aggregate = .ok d2
          ∧ oc.df = d2.slice 0 limit)) := by
  unfold read_parquet_instr at h
  dsimp only at h
  cases hfold : List.foldlM (process_row_group env schema fm
      (effective_projection projection schema) predicate aggregate
      (effective_parallel projection schema par) rc)
      ⟨limit, 0, [], 0, 0⟩ (List.range fm.row_groups.length) with
  | error e => rw [hfold] at h; exact absurd h (by simp)
  | ok st =>
    rw [hfold] at h
    dsimp only at h
    by_cases he : st.dfs.isEmpty
    · rw [if_pos he] at h
      have hoc := Except.ok.inj h
      subst hoc
      constructor
      · rfl
      · refine Or.inl ⟨List.isEmpty_iff.mp he, ?_⟩
        cases projection <;> rfl
    · rw [if_neg he] at h
      cases hacc : accumulate_dataframes_vertical st.dfs with
      | error e => rw [hacc] at h; exact absurd h (by simp)
      | ok d =>
        rw [hacc] at h
        dsimp only at h
        cases hagg : apply_aggregations d aggregate with
        | error e => rw [hagg] at h; exact absurd h (by simp)
        | ok d2 =>
          rw [hagg] at h
          have hoc := Except.ok.inj h
          subst hoc
          constructor
          · rfl
          · exact Or.inr ⟨d, d2, hacc, hagg, rfl⟩

theorem arrow_schema_to_empty_df_height (schema : ArrowSchema) :
    (arrow_schema_to_empty_df schema).height = 0 := by
  cases hs : schema.fields <;>
    simp [arrow_schema_to_empty_df, DataFrame.height, hs]

theorem slice_height_le (df : DataFrame) (n : Nat) :
    (DataFrame.slice df 0 n).height ≤ n := by
  obtain ⟨cols⟩ := df
  cases cols with
  | nil => simp [DataFrame.slice, DataFrame.height]
  | cons s cs =>
    simp only [DataFrame.slice, DataFrame.height, List.map_cons, List.drop_zero,
      List.length_take]
    exact inf_le_left

theorem foldlM_process_error (env : ScanEnv) (schema : ArrowSchema)
    (fm : FileMetaData) (proj : List Nat) (pred : Option PhysicalIoExpr)
    (agg : Option (List ScanAggregation)) (par : Bool) (rc : Option RowCount)
    (e : PolarsError) (l : List Nat) (st : ScanState)
    (hd : skip_decision env schema fm.row_groups pred = .error e) (hl : l ≠ []) :
    List.foldlM (process_row_group env schema fm proj pred agg par rc) st l
      = .error e := by
  cases l with
  | nil => exact absurd rfl hl
  | cons a as =>
    rw [List.foldlM_cons,
      process_row_group_of_decision_error env schema fm proj pred agg par rc st a
        e hd, pr_bind_error]

theorem range_map_getD_sum (rgs : List RowGroupMetaData) (k : Nat) :
    ((List.range k).map (fun i => (rgs.getD i ⟨0⟩).num_rows)).sum
      = ((rgs.take k).map RowGroupMetaData.num_rows).sum := by
  induction k with
  | zero => rfl
  | succ k ih =>
    rw [List.range_succ, List.map_append, List.sum_append, ih, List.take_succ,
      List.map_append, List.sum_append]
    cases hk : rgs[k]? with
    | none => simp [List.getD_eq_getElem?_getD, hk]
    | some md => simp [List.getD_eq_getElem?_getD, hk]

theorem read_parquet_instr_par_df (env : ScanEnv) (limit : Nat)
    (projection : Option (List Nat)) (schema : ArrowSchema) (fm : FileMetaData)
    (predicate : Option PhysicalIoExpr) (aggregate : Option (List ScanAggregation))
    (rc : Option RowCount) (par₁ par₂ : Bool) :
    (read_parquet_instr env limit projection schema (some fm) predicate aggregate
        par₁ rc).map ScanOutcome.df
      = (read_parquet_instr env limit projection schema (some fm) predicate aggregate
        par₂ rc).map ScanOutcome.df := by
  unfold read_parquet_instr
  dsimp only
  rw [foldlM_process_par env schema fm (effective_projection projection schema)
    predicate aggregate (effective_parallel projection schema par₁) rc
    (List.range fm.row_groups.length) ⟨limit, 0, [], 0, 0⟩]
  rw [foldlM_process_par env schema fm (effective_projection projection schema)
    predicate aggregate (effective_parallel projection schema par₂) rc
    (List.range fm.row_groups.length) ⟨limit, 0, [], 0, 0⟩]
  dsimp only
  cases hf : List.foldlM (process_row_group env schema fm
      (effective_projection projection schema) predicate aggregate false rc)
      ⟨limit, 0, [], 0, 0⟩ (List.range fm.row_groups.length) with
  | error e => rfl
  | ok r =>
    rw [pr_map_ok, pr_map_ok]
    dsimp only
    by_cases he : r.dfs.isEmpty = true
    · rw [if_pos he, if_pos he]
      rfl
    · rw [if_neg he, if_neg he]
      cases accumulate_dataframes_vertical r.dfs with
      | error e => rfl
      | ok d =>
        dsimp only
        cases apply_aggregations d aggregate with
        | error e => rfl
        | ok d2 => rfl

theorem read_parquet_ok_of_instr (env : ScanEnv) (limit : Nat)
    (projection : Option (List Nat)) (schema : ArrowSchema)
    (metadata : Option FileMetaData) (predicate : Option PhysicalIoExpr)
    (aggregate : Option (List ScanAggregation)) (par : Bool) (rc : Option RowCount)
    (df : DataFrame)
    (h : read_parquet env limit projection schema metadata predicate aggregate par rc
      = .ok df) :
    ∃ fm oc, read_parquet_instr env limit projection schema (some fm) predicate
        aggregate par rc = .ok oc ∧ oc.df = df := by
  unfold read_parquet at h
  cases metadata with
  | some fm =>
    cases hi : read_parquet_instr env limit projection schema (some fm) predicate
        aggregate par rc with
    | error e => rw [hi, pr_map_error] at h; exact absurd h (by simp)
    | ok oc =>
      rw [hi, pr_map_ok] at h
      exact ⟨fm, oc, hi, Except.ok.inj h⟩
  | none =>
    rw [read_parquet_instr_none_md] at h
    cases hm : env.read_metadata with
    | error e => rw [hm] at h; exact absurd h (by simp [pr_map_error])
    | ok fm =>
      rw [hm] at h
      dsimp only at h
      cases hi : read_parquet_instr env limit projection schema (some fm) predicate
          aggregate par rc with
      | error e => rw [hi, pr_map_error] at h; exact absurd h (by simp)
      | ok oc =>
        rw [hi, pr_map_ok] at h
        exact ⟨fm, oc, hi, Except.ok.inj h⟩

/-- C4: For every reader environment, limit, projection, schema, metadata,
predicate, aggregation and row-count spec, read_parquet invoked with
parallel = true returns exactly the same table (same values, same column order,
same row order), or the same error, as read_parquet invoked with
parallel = false: the parallel fan-out collects the per-column results in
projection order, so parallelism never changes the output. -/
theorem c4_parallel_serial_equivalence (env : ScanEnv) (limit : Nat)
    (projection : Option (List Nat)) (schema : ArrowSchema)
    (metadata : Option FileMetaData) (predicate : Option PhysicalIoExpr)
    (aggregate : Option (List ScanAggregation)) (row_count : Option RowCount) :
    read_parquet env limit projection schema metadata predicate aggregate true
        row_count
      = read_parquet env limit projection schema metadata predicate aggregate false
        row_count := by
  unfold read_parquet
  cases metadata with
  | some fm =>
    exact read_parquet_instr_par_df env limit projection schema fm predicate
      aggregate row_count true false
  | none =>
    rw [read_parquet_instr_none_md, read_parquet_instr_none_md]
    cases env.read_metadata with
    | error e => rfl
    | ok fm =>
      dsimp only
      exact read_parquet_instr_par_df env limit projection schema fm predicate
        aggregate row_count true false

/-- C9: When the effective projection has exactly one column, the effective
parallel flag computed at source lines 74-76 is false even if the caller passed
parallel = true, so the loop only ever takes the serial column-materialization
branch: the worker-pool dispatch counter of the final scan state stays zero. -/
theorem c9_single_column_serial (env : ScanEnv) (limit : Nat)
    (projection : Option (List Nat)) (schema : ArrowSchema)
    (predicate : Option PhysicalIoExpr) (aggregate : Option (List ScanAggregation))
    (row_count : Option RowCount)
    (h : (effective_projection projection schema).length = 1) :
    effective_parallel projection schema true = false
    ∧ (∀ (metadata : Option FileMetaData) (oc : ScanOutcome),
        read_parquet_instr env limit projection schema metadata predicate aggregate
          true row_count = .ok oc → oc.final.pool_dispatches = 0) := by
  have hp : effective_parallel projection schema true = false := by
    simp [effective_parallel, h]
  refine ⟨hp, ?_⟩
  have main : ∀ (fm : FileMetaData) (oc : ScanOutcome),
      read_parquet_instr env limit projection schema (some fm) predicate aggregate
        true row_count = .ok oc → oc.final.pool_dispatches = 0 := by
    intro fm oc hok
    obtain ⟨hfold, _⟩ := read_parquet_instr_cases env limit projection schema fm
      predicate aggregate true row_count oc hok
    rw [hp] at hfold
    have hpool := foldlM_process_pool_false env schema fm
      (effective_projection projection schema) predicate aggregate row_count
      (List.range fm.row_groups.length) ⟨limit, 0, [], 0, 0⟩ oc.final hfold
    simpa using hpool
  intro metadata oc hok
  cases metadata with
  | some fm => exact main fm oc hok
  | none =>
    rw [read_parquet_instr_none_md] at hok
    cases hm : env.read_metadata with
    | error e => rw [hm] at hok; exact absurd hok (by simp)
    | ok fm =>
      rw [hm] at hok
      exact main fm oc hok

/-- C5: remaining_rows is non-increasing across every step of the row-group loop
and, being a Nat decremented with saturating subtraction, never negative; and
the table returned by a successful read_parquet holds at most limit rows. -/
theorem c5_row_budget :
    (∀ (env : ScanEnv) (schema : ArrowSchema) (fm : FileMetaData) (proj : List Nat)
      (pred : Option PhysicalIoExpr) (agg : Option (List ScanAggregation))
      (par : Bool) (rc : Option RowCount) (st : ScanState) (rg : Nat)
      (r : ScanState),
      process_row_group env schema fm proj pred agg par rc st rg = .ok r →
      r.remaining_rows ≤ st.remaining_rows)
    ∧ (∀ (env : ScanEnv) (limit : Nat) (projection : Option (List Nat))
      (schema : ArrowSchema) (metadata : Option FileMetaData)
      (predicate : Option PhysicalIoExpr) (aggregate : Option (List ScanAggregation))
      (par : Bool) (rc : Option RowCount) (df : DataFrame),
      read_parquet env limit projection schema metadata predicate aggregate par rc
        = .ok df → df.height ≤ limit) := by
  constructor
  · intro env schema fm proj pred agg par rc st rg r hr
    exact process_row_group_remaining_le env schema fm proj pred agg par rc st rg r hr
  · intro env limit projection schema metadata predicate aggregate par rc df h
    obtain ⟨fm, oc, hi, hdf⟩ := read_parquet_ok_of_instr env limit projection schema
      metadata predicate aggregate par rc df h
    obtain ⟨_, hcase⟩ := read_parquet_instr_cases env limit projection schema fm
      predicate aggregate par rc oc hi
    rcases hcase with ⟨_, hempty⟩ | ⟨d, d2, _, _, hslice⟩
    · rw [← hdf, hempty, arrow_schema_to_empty_df_height]
      exact Nat.zero_le _
    · rw [← hdf, hslice]
      exact slice_height_le d2 limit

/-- C1 (amended): a row group skipped because should_read returned false advances
previous_row_count by its full num_rows and contributes no decoded columns and
no table, but remaining_rows is left unchanged by the skip — the saturating
decrement at source lines 155-156 runs only for materialized row groups, so the
skipped group does not consume the row budget. -/
theorem c1_skip_advances_only_previous_row_count (env : ScanEnv)
    (schema : ArrowSchema) (fm : FileMetaData) (proj : List Nat)
    (p : PhysicalIoExpr) (se : StatsEvaluator) (stats : BatchStats)
    (agg : Option (List ScanAggregation)) (par : Bool) (rcOpt : Option RowCount)
    (st : ScanState) (rg : Nat)
    (h1 : p.as_stats_evaluator = some se)
    (h2 : env.collect_statistics fm.row_groups schema = .ok (some stats))
    (h3 : se.should_read stats = .ok false) :
    process_row_group env schema fm proj (some p) agg par rcOpt st rg
      = .ok { st with
          stats_calls := st.stats_calls + 1,
          previous_row_count :=
            st.previous_row_count + (fm.row_groups.getD rg ⟨0⟩).num_rows } := by
  have hd := skip_decision_skip env schema fm.row_groups p se stats h1 h2 h3
  rw [process_row_group_of_decision env schema fm proj (some p) agg par rcOpt st rg
    true 1 hd, if_pos rfl]

/-- Witness for c1_skip_advances_only_previous_row_count: a concrete skipped
10-row row group under budget 100 leaves remaining_rows at 100, advances
previous_row_count to 10 and accumulates no table. -/
theorem c1_skip_advances_only_previous_row_count_witness :
    process_row_group envStd schemaA meta1g10 [0] (some predSkipAll) none false none
        ⟨100, 0, [], 0, 0⟩ 0
      = .ok ⟨100, 10, [], 1, 0⟩ := by
  have h := c1_skip_advances_only_previous_row_count envStd schemaA meta1g10 [0]
    predSkipAll ⟨fun _ => .ok false⟩ [] none false none ⟨100, 0, [], 0, 0⟩ 0
    rfl rfl rfl
  exact h

/-- C1 counterexample: one row group of 10 rows, skipped by statistics, under
limit 100 — the claim demands that remaining_rows drop to 90, but the scan ends
with remaining_rows still 100 (while previous_row_count advances to 10 and the
output has no rows). -/
theorem c1_counterexample :
    (read_parquet_instr envStd 100 none schemaA (some meta1g10) (some predSkipAll)
        none false none).toOption.map
        (fun oc => (oc.final.previous_row_count, oc.final.remaining_rows,
          oc.df.height))
      = some (10, 100, 0)
    ∧ (100 : Nat) ≠ 100 - 10 := by
  exact ⟨rfl, by decide⟩

/-- C2 (amended): the file-wide statistics collector is invoked once per row
group examined while the predicate exposes a statistics evaluator — a successful
scan over a file with n row groups makes exactly n collect_statistics
invocations, not at most one per read_parquet call. -/
theorem c2_stats_collected_per_row_group (env : ScanEnv) (limit : Nat)
    (projection : Option (List Nat)) (schema : ArrowSchema) (fm : FileMetaData)
    (p : PhysicalIoExpr) (se : StatsEvaluator)
    (aggregate : Option (List ScanAggregation)) (par : Bool) (rc : Option RowCount)
    (oc : ScanOutcome) (hse : p.as_stats_evaluator = some se)
    (h : read_parquet_instr env limit projection schema (some fm) (some p) aggregate
      par rc = .ok oc) :
    oc.final.stats_calls = fm.row_groups.length := by
  obtain ⟨hfold, _⟩ := read_parquet_instr_cases env limit projection schema fm
    (some p) aggregate par rc oc h
  have hst := foldlM_process_stats_eval env schema fm
    (effective_projection projection schema) p se aggregate
    (effective_parallel projection schema par) rc hse
    (List.range fm.row_groups.length) ⟨limit, 0, [], 0, 0⟩ oc.final hfold
  simpa using hst

/-- Witness for c2_stats_collected_per_row_group: a concrete two-row-group scan
whose statistics evaluator is consulted for both groups. -/
theorem c2_stats_collected_per_row_group_witness :
    ScanState.stats_calls ⟨10, 2, [], 2, 0⟩ = meta2g.row_groups.length := by
  exact c2_stats_collected_per_row_group envStd 10 none schemaA meta2g predSkipAll
    ⟨fun _ => .ok false⟩ none false none ⟨⟨[⟨"a", "int", []⟩]⟩, ⟨10, 2, [], 2, 0⟩⟩
    rfl rfl

/-- C2 counterexample: a file with two row groups and a statistics-evaluating
predicate makes two collect_statistics invocations in a single read_parquet
call, refuting the at-most-once-per-call claim. -/
theorem c2_counterexample :
    (read_parquet_instr envStd 10 none schemaA (some meta2g) (some predSkipAll)
        none false none).toOption.map (fun oc => oc.final.stats_calls) = some 2
    ∧ ¬ (2 ≤ 1) := by
  exact ⟨rfl, by decide⟩

/-- Witness for c9_single_column_serial: the one-column schema forces the serial
path and a concrete one-row-group scan run with parallel = true ends with a zero
worker-pool dispatch counter. -/
theorem c9_single_column_serial_witness :
    effective_parallel none schemaA true = false
    ∧ ScanState.pool_dispatches
        ⟨0, 5, [⟨[⟨"a", "int", [0, 1, 2, 3, 4]⟩]⟩], 0, 0⟩ = 0 := by
  have h := c9_single_column_serial envStd 5 none schemaA none none none rfl
  refine ⟨h.1, ?_⟩
  exact h.2 (some meta1g5)
    ⟨⟨[⟨"a", "int", [0, 1, 2, 3, 4]⟩]⟩,
      ⟨0, 5, [⟨[⟨"a", "int", [0, 1, 2, 3, 4]⟩]⟩], 0, 0⟩⟩ rfl

/-- Witness for c5_row_budget: a concrete step leaves the budget non-increasing
and a concrete scan with limit 3 over a 5-row row group returns 3 rows. -/
theorem c5_row_budget_witness :
    ScanState.remaining_rows ⟨0, 5, [⟨[⟨"a", "int", [0, 1, 2, 3, 4]⟩]⟩], 0, 0⟩ ≤ 5
    ∧ DataFrame.height ⟨[⟨"a", "int", [0, 1, 2]⟩]⟩ ≤ 3 := by
  constructor
  · exact c5_row_budget.1 envStd schemaA meta1g5 [0] none none false none
      ⟨5, 0, [], 0, 0⟩ 0 ⟨0, 5, [⟨[⟨"a", "int", [0, 1, 2, 3, 4]⟩]⟩], 0, 0⟩ rfl
  · exact c5_row_budget.2 envStd 3 none schemaA (some meta1g5) none none false none
      ⟨[⟨"a", "int", [0, 1, 2]⟩]⟩ rfl

/-- C3: should_read failing with NotFound is absorbed — the row group is still
read (the step reduces to the full materialization path, never to a skip); any
other should_read failure makes read_parquet abort immediately with that very
error; and an absent predicate, a predicate without the statistics capability,
or statistics collection yielding none all lead to the row group being read. -/
theorem c3_stats_error_handling (env : ScanEnv) (schema : ArrowSchema)
    (fm : FileMetaData) (proj : List Nat) (agg : Option (List ScanAggregation))
    (par : Bool) (rcOpt : Option RowCount) (st : ScanState) (rg : Nat)
    (limit : Nat) (projection : Option (List Nat)) :
    (∀ (p : PhysicalIoExpr) (se : StatsEvaluator) (stats : BatchStats) (m : String),
      p.as_stats_evaluator = some se →
      env.collect_statistics fm.row_groups schema = .ok (some stats) →
      se.should_read stats = .error (.NotFound m) →
      process_row_group env schema fm proj (some p) agg par rcOpt st rg
        = materialize_row_group env schema fm proj (some p) agg par rcOpt
            { st with stats_calls := st.stats_calls + 1 } rg)
    ∧ (∀ (p : PhysicalIoExpr) (se : StatsEvaluator) (stats : BatchStats)
        (e : PolarsError),
      p.as_stats_evaluator = some se →
      env.collect_statistics fm.row_groups schema = .ok (some stats) →
      se.should_read stats = .error e → (∀ m, e ≠ .NotFound m) →
      fm.row_groups ≠ [] →
      read_parquet env limit projection schema (some fm) (some p) agg par rcOpt
        = .error e)
    ∧ (process_row_group env schema fm proj none agg par rcOpt st rg
        = materialize_row_group env schema fm proj none agg par rcOpt st rg)
    ∧ (∀ (p : PhysicalIoExpr), p.as_stats_evaluator = none →
      process_row_group env schema fm proj (some p) agg par rcOpt st rg
        = materialize_row_group env schema fm proj (some p) agg par rcOpt st rg)
    ∧ (∀ (p : PhysicalIoExpr) (se : StatsEvaluator),
      p.as_stats_evaluator = some se →
      env.collect_statistics fm.row_groups schema = .ok none →
      process_row_group env schema fm proj (some p) agg par rcOpt st rg
        = materialize_row_group env schema fm proj (some p) agg par rcOpt
            { st with stats_calls := st.stats_calls + 1 } rg) := by
  refine ⟨?_, ?_, ?_, ?_, ?_⟩
  · intro p se stats m h1 h2 h3
    have hd := skip_decision_notfound env schema fm.row_groups p se stats m h1 h2 h3
    rw [process_row_group_of_decision env schema fm proj (some p) agg par rcOpt st
      rg false 1 hd, if_neg Bool.false_ne_true]
  · intro p se stats e h1 h2 h3 hne hnil
    have hd := skip_decision_hard_error env schema fm.row_groups p se stats e h1 h2
      h3 hne
    have hfold := foldlM_process_error env schema fm
      (effective_projection projection schema) (some p) agg
      (effective_parallel projection schema par) rcOpt e
      (List.range fm.row_groups.length) ⟨limit, 0, [], 0, 0⟩ hd
      (by
        intro hc
        exact hnil (List.length_eq_zero.mp (List.range_eq_nil.mp hc)))
    unfold read_parquet read_parquet_instr
    dsimp only
    rw [hfold]
    rfl
  · have hd := skip_decision_none_pred env schema fm.row_groups
    rw [process_row_group_of_decision env schema fm proj none agg par rcOpt st rg
      false 0 hd, if_neg Bool.false_ne_true]
    rfl
  · intro p hp
    have hd := skip_decision_no_evaluator env schema fm.row_groups p hp
    rw [process_row_group_of_decision env schema fm proj (some p) agg par rcOpt st
      rg false 0 hd, if_neg Bool.false_ne_true]
    rfl
  · intro p se h1 h2
    have hd := skip_decision_no_stats env schema fm.row_groups p se h1 h2
    rw [process_row_group_of_decision env schema fm proj (some p) agg par rcOpt st
      rg false 1 hd, if_neg Bool.false_ne_true]

/-- Witness for c3_stats_error_handling: each error-handling branch exercised on
a concrete one-row-group file. -/
theorem c3_stats_error_handling_witness :
    (process_row_group envStd schemaA meta1g5 [0] (some predNotFound) none false
        none ⟨9, 0, [], 0, 0⟩ 0
      = materialize_row_group envStd schemaA meta1g5 [0] (some predNotFound) none
          false none ⟨9, 0, [], 1, 0⟩ 0)
    ∧ (read_parquet envStd 9 none schemaA (some meta1g5) (some predHardErr) none
        false none = .error (.ComputeError "stats evaluation failed"))
    ∧ (process_row_group envStd schemaA meta1g5 [0] none none false none
        ⟨9, 0, [], 0, 0⟩ 0
      = materialize_row_group envStd schemaA meta1g5 [0] none none false none
          ⟨9, 0, [], 0, 0⟩ 0)
    ∧ (process_row_group envStd schemaA meta1g5 [0] (some predNoCap) none false none
        ⟨9, 0, [], 0, 0⟩ 0
      = materialize_row_group envStd schemaA meta1g5 [0] (some predNoCap) none false
          none ⟨9, 0, [], 0, 0⟩ 0)
    ∧ (process_row_group envNoStats schemaA meta1g5 [0] (some predKeepAll) none
        false none ⟨9, 0, [], 0, 0⟩ 0
      = materialize_row_group envNoStats schemaA meta1g5 [0] (some predKeepAll) none
          false none ⟨9, 0, [], 1, 0⟩ 0) := by
  refine ⟨?_, ?_, ?_, ?_, ?_⟩
  · exact (c3_stats_error_handling envStd schemaA meta1g5 [0] none false none
      ⟨9, 0, [], 0, 0⟩ 0 9 none).1 predNotFound
      ⟨fun _ => .error (.NotFound "no stats for column")⟩ []
      "no stats for column" rfl rfl rfl
  · exact (c3_stats_error_handling envStd schemaA meta1g5 [0] none false none
      ⟨9, 0, [], 0, 0⟩ 0 9 none).2.1 predHardErr
      ⟨fun _ => .error (.ComputeError "stats evaluation failed")⟩ []
      (.ComputeError "stats evaluation failed") rfl rfl rfl
      (fun m => by simp) (by simp [meta1g5])
  · exact (c3_stats_error_handling envStd schemaA meta1g5 [0] none false none
      ⟨9, 0, [], 0, 0⟩ 0 9 none).2.2.1
  · exact (c3_stats_error_handling envStd schemaA meta1g5 [0] none false none
      ⟨9, 0, [], 0, 0⟩ 0 9 none).2.2.2.1 predNoCap rfl
  · exact (c3_stats_error_handling envNoStats schemaA meta1g5 [0] none false none
      ⟨9, 0, [], 0, 0⟩ 0 9 none).2.2.2.2 predKeepAll ⟨fun _ => .ok true⟩ rfl rfl

/-- C6: previous_row_count after the first k row groups of the loop equals the
sum of their num_rows values regardless of skip or predicate decisions, and the
RowCount column attached to a processed row group before the row-level predicate
runs is the first column of the assembled table, named by the spec, holding
previous_row_count + offset + j at row j — so it starts at
previous_row_count + offset; for row groups of sizes [10, 20, 30] the counter
ends at 60 and the column of group 2 starts at 30 + offset. -/
theorem c6_previous_row_count_and_row_count_column (env : ScanEnv)
    (schema : ArrowSchema) (fm : FileMetaData) (proj : List Nat)
    (pred : Option PhysicalIoExpr) (agg : Option (List ScanAggregation))
    (par : Bool) (rcOpt : Option RowCount) :
    (∀ (k : Nat) (st r : ScanState),
      List.foldlM (process_row_group env schema fm proj pred agg par rcOpt) st
        (List.range k) = .ok r →
      r.previous_row_count = st.previous_row_count
        + ((fm.row_groups.take k).map RowGroupMetaData.num_rows).sum)
    ∧ (∀ (columns : List Series) (rc : RowCount) (prc : Nat),
      (assemble_df columns (some rc) prc).columns.headD ⟨"", "", []⟩
        = ⟨rc.name, "idx",
            (List.range (DataFrame.new_no_checks columns).height).map
              (fun j => prc + rc.offset + j)⟩)
    ∧ (∀ (columns : List Series) (rc : RowCount) (prc : Nat),
      0 < (DataFrame.new_no_checks columns).height →
      ((assemble_df columns (some rc) prc).columns.headD ⟨"", "", []⟩).values.headD 0
        = prc + rc.offset) := by
  refine ⟨?_, ?_, ?_⟩
  · intro k st r h
    rw [foldlM_process_prc env schema fm proj pred agg par rcOpt (List.range k) st r
      h, range_map_getD_sum]
  · intro columns rc prc
    rfl
  · intro columns rc prc hpos
    show ((List.range (DataFrame.new_no_checks columns).height).map
      (fun j => prc + rc.offset + j)).headD 0 = prc + rc.offset
    cases hh : (DataFrame.new_no_checks columns).height with
    | zero => rw [hh] at hpos; exact absurd hpos (by decide)
    | succ n =>
      rw [List.range_succ_eq_map]
      simp

/-- Witness for c6_previous_row_count_and_row_count_column: the concrete
[10, 20, 30] scan ends with counter 60 and the row-count column of the 30-row
group processed at counter 30 with offset 7 starts at 37. -/
theorem c6_previous_row_count_and_row_count_column_witness :
    c6_final.previous_row_count
        = 0 + ((meta3g.row_groups.take 3).map RowGroupMetaData.num_rows).sum
    ∧ ((meta3g.row_groups.take 3).map RowGroupMetaData.num_rows).sum = 60
    ∧ ((assemble_df [⟨"a", "int", List.range 30⟩] (some ⟨"rn", 7⟩) 30).columns.headD
        ⟨"", "", []⟩).values.headD 0 = 30 + 7 := by
  refine ⟨?_, by decide, ?_⟩
  · exact (c6_previous_row_count_and_row_count_column envStd schemaA meta3g [0]
      none none false (some ⟨"rn", 7⟩)).1 3 ⟨1000, 0, [], 0, 0⟩ c6_final rfl
  · exact (c6_previous_row_count_and_row_count_column envStd schemaA meta3g [0]
      none none false (some ⟨"rn", 7⟩)).2.2 [⟨"a", "int", List.range 30⟩]
      ⟨"rn", 7⟩ 30 (by decide)

/-- C7: a scan that accumulates no partial tables — because the file holds no row
groups, or because the statistics evaluator rejects every row group — returns
the typed empty table over the projected schema (the projection of the caller
applied to the schema, or the whole schema when no projection was given): the
columns carry exactly the projected names and types and hold zero rows. -/
theorem c7_empty_scan_typed (env : ScanEnv) (limit : Nat)
    (projection : Option (List Nat)) (schema : ArrowSchema) (fm : FileMetaData)
    (predicate : Option PhysicalIoExpr) (aggregate : Option (List ScanAggregation))
    (par : Bool) (rcOpt : Option RowCount)
    (h : fm.row_groups = []
      ∨ ∃ p se stats, predicate = some p ∧ p.as_stats_evaluator = some se
          ∧ env.collect_statistics fm.row_groups schema = .ok (some stats)
          ∧ se.should_read stats = .ok false) :
    read_parquet env limit projection schema (some fm) predicate aggregate par rcOpt
      = .ok (arrow_schema_to_empty_df (match projection with
          | some pl => apply_projection schema pl
          | none => schema))
    ∧ (∀ (s : ArrowSchema),
        (arrow_schema_to_empty_df s).columns.map Series.name
            = s.fields.map ArrowField.name
        ∧ (arrow_schema_to_empty_df s).columns.map Series.dtype
            = s.fields.map ArrowField.data_type
        ∧ ∀ c ∈ (arrow_schema_to_empty_df s).columns, c.values = []) := by
  constructor
  · have hfold : ∃ r, List.foldlM (process_row_group env schema fm
        (effective_projection projection schema) predicate aggregate
        (effective_parallel projection schema par) rcOpt) ⟨limit, 0, [], 0, 0⟩
        (List.range fm.row_groups.length) = .ok r ∧ r.dfs = [] := by
      rcases h with hnil | ⟨p, se, stats, hp, hse, hcs, hsr⟩
      · rw [hnil]
        exact ⟨⟨limit, 0, [], 0, 0⟩, rfl, rfl⟩
      · subst hp
        obtain ⟨r, hrun, hdfs⟩ := foldlM_process_all_skip env schema fm
          (effective_projection projection schema) p se stats aggregate
          (effective_parallel projection schema par) rcOpt hse hcs hsr
          (List.range fm.row_groups.length) ⟨limit, 0, [], 0, 0⟩
        exact ⟨r, hrun, hdfs⟩
    obtain ⟨r, hrun, hdfs⟩ := hfold
    unfold read_parquet read_parquet_instr
    dsimp only
    rw [hrun]
    dsimp only
    rw [if_pos (List.isEmpty_iff.mpr hdfs), pr_map_ok]
    cases projection <;> rfl
  · intro s
    refine ⟨?_, ?_, ?_⟩
    · simp [arrow_schema_to_empty_df]
    · simp [arrow_schema_to_empty_df]
    · intro c hc
      simp only [arrow_schema_to_empty_df, List.mem_map] at hc
      obtain ⟨f, _, hf⟩ := hc
      rw [← hf]

/-- Witness for c7_empty_scan_typed: skipping both row groups of a two-column
file yields the zero-row table with columns a of type int and b of type string;
the no-row-group case yields it as well. -/
theorem c7_empty_scan_typed_witness :
    read_parquet envStd 10 none schemaAB (some meta2g) (some predSkipAll) none false
        none = .ok ⟨[⟨"a", "int", []⟩, ⟨"b", "string", []⟩]⟩
    ∧ read_parquet envStd 10 none schemaAB (some metaEmpty) none none false none
        = .ok ⟨[⟨"a", "int", []⟩, ⟨"b", "string", []⟩]⟩ := by
  constructor
  · exact (c7_empty_scan_typed envStd 10 none schemaAB meta2g (some predSkipAll)
      none false none
      (Or.inr ⟨predSkipAll, ⟨fun _ => .ok false⟩, [], rfl, rfl, rfl, rfl⟩)).1
  · exact (c7_empty_scan_typed envStd 10 none schemaAB metaEmpty none none false
      none (Or.inl rfl)).1

end PolarsParquet
